import Mathlib

/-!
Verification of `fix_app_icon.py`: a script that strips the alpha channel
from a fixed set of app-icon PNG files by compositing them onto an opaque
white background, with a `.backup` rename before each file is rewritten.

The development shallowly embeds the script:
* the pixel-level compositing (`Image.paste` with the alpha band as mask,
  onto a white `RGB` background) using Pillow's exact integer blend
  (the `MULDIV255` rounding trick);
* the filesystem-level driver `main` as a pure function on an explicit
  filesystem state, with console output modelled as a list of messages.
-/

set_option autoImplicit false

/-! ## Pixel-level image model -/

/-- A 3-channel pixel; channels are byte values `0..255`. -/
structure RGB where
  r : Nat
  g : Nat
  b : Nat
deriving DecidableEq

/-- A 4-channel pixel with alpha; channels are byte values `0..255`.
Alpha `0` is fully transparent, `255` fully opaque. -/
structure RGBA where
  r : Nat
  g : Nat
  b : Nat
  a : Nat
deriving DecidableEq

/-- All channels of an `RGBA` pixel are bytes. -/
def RGBA.valid (p : RGBA) : Prop :=
  p.r < 256 ∧ p.g < 256 ∧ p.b < 256 ∧ p.a < 256

instance (p : RGBA) : Decidable p.valid := by
  unfold RGBA.valid
  exact inferInstance

/-- A decoded in-memory image buffer: either 3-channel (`RGB` mode) or
4-channel (`RGBA` mode), as a flat list of pixels. -/
inductive Img
  | rgb (pixels : List RGB)
  | rgba (pixels : List RGBA)
deriving DecidableEq

/-- `img.convert('RGBA')` when needed: a 3-channel image gains a fully
opaque alpha channel, a 4-channel image is returned unchanged
(`if img.mode != 'RGBA': img = img.convert('RGBA')`). -/
def Img.convertRGBA : Img → List RGBA
  | .rgb ps => ps.map fun p => ⟨p.r, p.g, p.b, 255⟩
  | .rgba ps => ps

/-- Pillow's `MULDIV255(x, y, tmp)` macro: `tmp = x*y + 128` followed by
`((tmp >> 8) + tmp) >> 8`, an integer approximation of `x*y/255`. -/
def muldiv255 (x y : Nat) : Nat :=
  let tmp := x * y + 128
  (tmp / 256 + tmp) / 256

/-- Pillow's `BLEND(mask, in1, in2)` used by `paste` with an alpha mask:
`in1` is the background channel, `in2` the pasted source channel. -/
def blend (mask in1 in2 : Nat) : Nat :=
  muldiv255 in1 (255 - mask) + muldiv255 in2 mask

/-- One pixel of `background.paste(img, mask=img.split()[-1])` where
`background` is white `(255, 255, 255)`: each colour channel is blended
between white and the source using the source's own alpha. -/
def pasteWhitePixel (p : RGBA) : RGB :=
  ⟨blend p.a 255 p.r, blend p.a 255 p.g, blend p.a 255 p.b⟩

/-- The image-buffer core of `remove_transparency`: convert to `RGBA` if
needed, composite onto a white `RGB` background, yielding a 3-channel
image (saved without an alpha channel). -/
def flattenImage (img : Img) : Img :=
  .rgb (img.convertRGBA.map pasteWhitePixel)

/-- Whether an image buffer carries an alpha channel. -/
def Img.hasAlpha : Img → Bool
  | .rgb _ => false
  | .rgba _ => true

/-! ## Specification-side compositing (from the spec's words)

The spec states `output_rgb == round(alpha*source_rgb + (1-alpha)*(255,255,255))`
with `alpha` normalised to `[0,1]`; over the integers this is rounding
`(a*s + (255-a)*255) / 255` to the nearest integer. -/

/-- Round `x / 255` to the nearest natural number (ties are impossible
since 255 is odd): `⌊(2*x + 255) / 510⌋`. -/
def roundDiv255 (x : Nat) : Nat := (2 * x + 255) / 510

/-- The spec's per-channel formula: `round(alpha*src + (1-alpha)*255)`
with `alpha = a/255`, written over the integers. -/
def specFlattenChannel (a s : Nat) : Nat :=
  roundDiv255 (a * s + (255 - a) * 255)

/-- The spec's per-pixel formula applied to each colour channel. -/
def specFlattenPixel (p : RGBA) : RGB :=
  ⟨specFlattenChannel p.a p.r, specFlattenChannel p.a p.g, specFlattenChannel p.a p.b⟩

/-- Pillow's `MULDIV255` is exact division by 255 with rounding to
nearest, for byte operands. -/
theorem muldiv255_eq_round (x y : Nat) (hx : x ≤ 255) (hy : y ≤ 255) :
    muldiv255 x y = roundDiv255 (x * y) := by
  have h : x * y ≤ 65025 := Nat.mul_le_mul hx hy
  show ((x * y + 128) / 256 + (x * y + 128)) / 256 = (2 * (x * y) + 255) / 510
  generalize x * y = n at h ⊢
  omega

/-- Pillow's integer blend onto white agrees exactly with the spec's
rounded convex combination, on every pair of byte values. -/
theorem blend_eq_specFlattenChannel (a s : Nat) (ha : a ≤ 255) (hs : s ≤ 255) :
    blend a 255 s = specFlattenChannel a s := by
  show muldiv255 255 (255 - a) + muldiv255 s a = roundDiv255 (a * s + (255 - a) * 255)
  rw [muldiv255_eq_round 255 (255 - a) (le_refl _) (by omega),
      muldiv255_eq_round s a hs ha]
  show (2 * (255 * (255 - a)) + 255) / 510 + (2 * (s * a) + 255) / 510
      = (2 * (a * s + (255 - a) * 255) + 255) / 510
  have h : s * a ≤ 65025 := Nat.mul_le_mul hs ha
  rw [Nat.mul_comm s a]
  generalize a * s = n at h ⊢
  omega

/-- Per-pixel version of `blend_eq_specFlattenChannel`. -/
theorem pasteWhitePixel_eq_spec (p : RGBA) (h : p.valid) :
    pasteWhitePixel p = specFlattenPixel p := by
  obtain ⟨hr, hg, hb, ha⟩ := h
  unfold pasteWhitePixel specFlattenPixel
  rw [blend_eq_specFlattenChannel p.a p.r (by omega) (by omega),
      blend_eq_specFlattenChannel p.a p.g (by omega) (by omega),
      blend_eq_specFlattenChannel p.a p.b (by omega) (by omega)]

/-- C1: for every input image with an alpha channel (all channels bytes),
the flattened output has no alpha channel and every output pixel is the
source composited over opaque white: `round(alpha*src + (1-alpha)*255)`
channel-wise. -/
theorem flatten_rgba_spec (ps : List RGBA) (h : ∀ p ∈ ps, p.valid) :
    (flattenImage (.rgba ps)).hasAlpha = false ∧
    flattenImage (.rgba ps) = .rgb (ps.map specFlattenPixel) := by
  refine ⟨rfl, ?_⟩
  show Img.rgb (ps.map pasteWhitePixel) = Img.rgb (ps.map specFlattenPixel)
  have : ps.map pasteWhitePixel = ps.map specFlattenPixel := by
    apply List.map_congr_left
    intro p hp
    exact pasteWhitePixel_eq_spec p (h p hp)
  rw [this]

/-- Witness for `flatten_rgba_spec` at a concrete two-pixel image. -/
theorem flatten_rgba_spec_witness :
    (∀ p ∈ [RGBA.mk 10 20 30 128, RGBA.mk 200 0 255 7], p.valid) ∧
    ((flattenImage (.rgba [RGBA.mk 10 20 30 128, RGBA.mk 200 0 255 7])).hasAlpha = false ∧
      flattenImage (.rgba [RGBA.mk 10 20 30 128, RGBA.mk 200 0 255 7])
        = .rgb ([RGBA.mk 10 20 30 128, RGBA.mk 200 0 255 7].map specFlattenPixel)) :=
  ⟨by decide, flatten_rgba_spec _ (by decide)⟩

/-- An opaque pixel blends to itself. -/
theorem blend_opaque (s : Nat) (hs : s ≤ 255) : blend 255 255 s = s := by
  rw [blend_eq_specFlattenChannel 255 s (le_refl _) hs]
  show (2 * (255 * s + (255 - 255) * 255) + 255) / 510 = s
  omega

/-- C2: for every input image whose alpha channel is 255 at every pixel,
the flattened output pixels equal the source RGB values exactly. -/
theorem flatten_opaque_id (ps : List RGBA) (hv : ∀ p ∈ ps, p.valid)
    (ha : ∀ p ∈ ps, p.a = 255) :
    flattenImage (.rgba ps) = .rgb (ps.map fun p => ⟨p.r, p.g, p.b⟩) := by
  show Img.rgb (ps.map pasteWhitePixel) = _
  have : ps.map pasteWhitePixel = ps.map fun p => RGB.mk p.r p.g p.b := by
    apply List.map_congr_left
    intro p hp
    obtain ⟨hr, hg, hb, -⟩ := hv p hp
    unfold pasteWhitePixel
    rw [ha p hp, blend_opaque p.r (by omega), blend_opaque p.g (by omega),
        blend_opaque p.b (by omega)]
  rw [this]

/-- Witness for `flatten_opaque_id` at a concrete fully opaque image. -/
theorem flatten_opaque_id_witness :
    (∀ p ∈ [RGBA.mk 1 2 3 255, RGBA.mk 250 251 252 255], p.valid) ∧
    (∀ p ∈ [RGBA.mk 1 2 3 255, RGBA.mk 250 251 252 255], p.a = 255) ∧
    flattenImage (.rgba [RGBA.mk 1 2 3 255, RGBA.mk 250 251 252 255])
      = .rgb ([RGBA.mk 1 2 3 255, RGBA.mk 250 251 252 255].map fun p => ⟨p.r, p.g, p.b⟩) :=
  ⟨by decide, by decide, flatten_opaque_id _ (by decide) (by decide)⟩

/-- A fully transparent pixel blends to pure white, whatever its colour. -/
theorem blend_transparent (s : Nat) : blend 0 255 s = 255 := by
  show muldiv255 255 255 + muldiv255 s 0 = 255
  have h1 : muldiv255 255 255 = 255 := by decide
  have h2 : muldiv255 s 0 = 0 := by
    show ((s * 0 + 128) / 256 + (s * 0 + 128)) / 256 = 0
    rw [Nat.mul_zero]
  rw [h1, h2]

/-- C3: for every input image whose alpha channel is 0 at every pixel,
the flattened output is solid white. -/
theorem flatten_transparent_white (ps : List RGBA) (ha : ∀ p ∈ ps, p.a = 0) :
    flattenImage (.rgba ps) = .rgb (ps.map fun _ => ⟨255, 255, 255⟩) := by
  show Img.rgb (ps.map pasteWhitePixel) = _
  have : ps.map pasteWhitePixel = ps.map fun _ => RGB.mk 255 255 255 := by
    apply List.map_congr_left
    intro p hp
    unfold pasteWhitePixel
    rw [ha p hp, blend_transparent, blend_transparent, blend_transparent]
  rw [this]

/-- Witness for `flatten_transparent_white` at a concrete fully
transparent black image. -/
theorem flatten_transparent_white_witness :
    (∀ p ∈ [RGBA.mk 0 0 0 0, RGBA.mk 90 17 255 0], p.a = 0) ∧
    flattenImage (.rgba [RGBA.mk 0 0 0 0, RGBA.mk 90 17 255 0])
      = .rgb ([RGBA.mk 0 0 0 0, RGBA.mk 90 17 255 0].map fun _ => ⟨255, 255, 255⟩) :=
  ⟨by decide, flatten_transparent_white _ (by decide)⟩

/-! ## Filesystem model

`main` touches the filesystem through `os.path.exists`, `os.rename`,
`Image.open` and `Image.save`. We model the filesystem as a list of
directories plus an association list from file paths to file data; a
file's data is either a decodable image or undecodable bytes (whose
decoding raises with a given error message). Console output is modelled
as a list of `Msg` values, one per `print` call. -/

/-- The contents of one file on disk: a decodable image, or bytes on
which `Image.open` raises an exception carrying `err`. -/
inductive FileData
  | image (img : Img)
  | corrupt (err : String)
deriving DecidableEq

/-- Filesystem state: the directories that exist and the files that
exist, the latter as an association list from path to contents. -/
structure FS where
  dirs : List String
  files : List (String × FileData)
deriving DecidableEq

/-- Look up the contents of the file at path `p`. -/
def findFile : List (String × FileData) → String → Option FileData
  | [], _ => none
  | e :: es, p => if e.1 = p then some e.2 else findFile es p

/-- Delete the file at path `p` (no-op when absent). -/
def removeFile (files : List (String × FileData)) (p : String) :
    List (String × FileData) :=
  files.filter fun e => e.1 != p

/-- Write data `d` to path `p`, replacing any existing file there. -/
def setFile (files : List (String × FileData)) (p : String) (d : FileData) :
    List (String × FileData) :=
  (p, d) :: removeFile files p

/-- `os.rename(src, dst)`: move the file at `src` to `dst`, silently
replacing any existing file at `dst`. -/
def FS.rename (fs : FS) (src dst : String) : FS :=
  match findFile fs.files src with
  | some d => { fs with files := setFile (removeFile fs.files src) dst d }
  | none => fs

/-- One console message per `print` call in the script. -/
inductive Msg
  | fixed (image_path output_path : String)
  | failure (image_path err : String)
  | dirNotFound (dir : String)
  | notFound (icon_file : String)
  | complete
  | nextSteps
  | step1
  | step2
deriving DecidableEq

/-- The exact text each message renders to on the console. -/
def Msg.render : Msg → String
  | .fixed i o => "✅ Fixed: " ++ i ++ " -> " ++ o
  | .failure i e => "❌ Error processing " ++ i ++ ": " ++ e
  | .dirNotFound d => "❌ App icon directory not found: " ++ d
  | .notFound f => "⚠️  Icon file not found: " ++ f
  | .complete => "\n🎉 App icon transparency fix complete!"
  | .nextSteps => "📝 Next steps:"
  | .step1 => "1. Clean and rebuild your project"
  | .step2 => "2. Archive and upload to App Store Connect"

/-- `Image.open` on the file at `image_path`: raises when the file is
missing or its bytes are not a decodable image. -/
def decode : Option FileData → Except String Img
  | none => .error "No such file or directory"
  | some (.corrupt e) => .error e
  | some (.image img) => .ok img

/-- The body of `remove_transparency`'s `try` block: open the image at
`image_path`, flatten it, and save the result at `output_path`; any
exception is surfaced as `.error`. -/
def remove_transparency_try (fs : FS) (image_path output_path : String) :
    Except String (FS × Msg) :=
  match decode (findFile fs.files image_path) with
  | .error e => .error e
  | .ok img =>
      .ok ({ fs with files := setFile fs.files output_path (.image (flattenImage img)) },
           .fixed image_path output_path)

/-- `remove_transparency(image_path, output_path)`: run the `try` body;
on success print the `Fixed` line, and on any exception catch it and
print the error line instead. The function always returns normally. -/
def remove_transparency (fs : FS) (image_path output_path : String) :
    FS × List Msg :=
  match remove_transparency_try fs image_path output_path with
  | .ok (fs', msg) => (fs', [msg])
  | .error e => (fs, [.failure image_path e])

/-! ## The driver `main` -/

/-- The hardcoded icon directory. -/
def app_icon_dir : String := "SaviPets/Assets.xcassets/AppIcon.appiconset"

/-- The hardcoded list of icon files to process, in order. -/
def icon_files : List String :=
  ["SaviPets-iOS-Default-1024x1024@1x.png",
   "SaviPets-iOS-Dark-1024x1024@1x.png",
   "SaviPets-iOS-TintedLight-1024x1024@1x.png"]

/-- `os.path.join(app_icon_dir, icon_file)`. -/
def iconPath (icon_file : String) : String :=
  app_icon_dir ++ "/" ++ icon_file

/-- `input_path + ".backup"`. -/
def backupPath (icon_file : String) : String :=
  iconPath icon_file ++ ".backup"

/-- One iteration of `main`'s loop: if the icon file exists, rename it to
its backup path and flatten the backup back onto the original path;
otherwise print the not-found warning. `st` carries the filesystem and
the console log. -/
def processIcon (st : FS × List Msg) (icon_file : String) : FS × List Msg :=
  let input_path := iconPath icon_file
  if (findFile st.1.files input_path).isSome then
    let backup_path := input_path ++ ".backup"
    let fs1 := st.1.rename input_path backup_path
    let r := remove_transparency fs1 backup_path input_path
    (r.1, st.2 ++ r.2)
  else
    (st.1, st.2 ++ [.notFound icon_file])

/-- The four `print` calls issued after the loop. -/
def finalMsgs : List Msg := [.complete, .nextSteps, .step1, .step2]

/-- `main()`: check the icon directory, process each icon file in order,
and print the completion banner. -/
def main' (fs : FS) : FS × List Msg :=
  if app_icon_dir ∈ fs.dirs then
    let st := icon_files.foldl processIcon (fs, [])
    (st.1, st.2 ++ finalMsgs)
  else
    (fs, [.dirNotFound app_icon_dir])

/-! ## Basic lemmas about the filesystem primitives -/

theorem findFile_removeFile (files : List (String × FileData)) (p q : String) :
    findFile (removeFile files p) q = if q = p then none else findFile files q := by
  induction files with
  | nil => simp [removeFile, findFile]
  | cons e es ih =>
      simp only [removeFile, List.filter_cons] at *
      by_cases hep : e.1 = p <;> by_cases hqp : q = p <;> by_cases heq : e.1 = q <;>
        simp_all [findFile]

theorem findFile_setFile (files : List (String × FileData)) (p : String)
    (d : FileData) (q : String) :
    findFile (setFile files p d) q = if q = p then some d else findFile files q := by
  by_cases hqp : q = p
  · simp [setFile, findFile, hqp]
  · have : ¬ p = q := fun h => hqp h.symm
    simp [setFile, findFile, this, hqp, findFile_removeFile]

/-! ## Decomposing one loop iteration -/

/-- The filesystem after one iteration of `main`'s loop on `icon_file`. -/
def stepFS (fs : FS) (icon_file : String) : FS :=
  (processIcon (fs, []) icon_file).1

/-- The messages printed by one iteration of `main`'s loop on `icon_file`. -/
def stepLog (fs : FS) (icon_file : String) : List Msg :=
  (processIcon (fs, []) icon_file).2

theorem processIcon_eq (fs : FS) (log : List Msg) (m : String) :
    processIcon (fs, log) m = (stepFS fs m, log ++ stepLog fs m) := by
  by_cases h : (findFile fs.files (iconPath m)).isSome
  · simp [stepFS, stepLog, processIcon, h]
  · simp [stepFS, stepLog, processIcon, h]

/-- A missing icon file: the filesystem is untouched. -/
theorem stepFS_absent (fs : FS) (m : String)
    (h : findFile fs.files (iconPath m) = none) : stepFS fs m = fs := by
  simp [stepFS, processIcon, h]

/-- A missing icon file: exactly the not-found warning is printed. -/
theorem stepLog_absent (fs : FS) (m : String)
    (h : findFile fs.files (iconPath m) = none) :
    stepLog fs m = [.notFound m] := by
  simp [stepLog, processIcon, h]

/-- The loop never creates or removes directories. -/
theorem stepFS_dirs (fs : FS) (m : String) : (stepFS fs m).dirs = fs.dirs := by
  rcases hc : findFile fs.files (iconPath m) with - | d
  · rw [stepFS_absent fs m hc]
  · simp only [stepFS, processIcon, hc, Option.isSome_some, if_true]
    rcases d with img | e <;>
      simp [FS.rename, hc, remove_transparency, remove_transparency_try,
        findFile_setFile, decode]

/-- A decodable icon file: it is renamed to its backup path, and the
flattened image is written at the original path. -/
theorem stepFS_image (fs : FS) (m : String) (img : Img)
    (h : findFile fs.files (iconPath m) = some (.image img)) :
    (stepFS fs m).files =
      setFile (setFile (removeFile fs.files (iconPath m)) (backupPath m) (.image img))
        (iconPath m) (.image (flattenImage img)) := by
  simp only [stepFS, processIcon, h, Option.isSome_some, if_true]
  simp [FS.rename, h, remove_transparency, remove_transparency_try,
    findFile_setFile, decode, backupPath]

/-- An undecodable icon file: it is renamed to its backup path and
nothing is written back at the original path. -/
theorem stepFS_corrupt (fs : FS) (m : String) (e : String)
    (h : findFile fs.files (iconPath m) = some (.corrupt e)) :
    (stepFS fs m).files =
      setFile (removeFile fs.files (iconPath m)) (backupPath m) (.corrupt e) := by
  simp only [stepFS, processIcon, h, Option.isSome_some, if_true]
  simp [FS.rename, h, remove_transparency, remove_transparency_try,
    findFile_setFile, decode, backupPath]

/-- A decodable icon file: exactly the success line is printed. -/
theorem stepLog_image (fs : FS) (m : String) (img : Img)
    (h : findFile fs.files (iconPath m) = some (.image img)) :
    stepLog fs m = [.fixed (backupPath m) (iconPath m)] := by
  simp only [stepLog, processIcon, h, Option.isSome_some, if_true]
  simp only [FS.rename, h, remove_transparency, remove_transparency_try,
    findFile_setFile, if_pos rfl, decode, backupPath]
  simp

/-- An undecodable icon file: exactly the error line is printed, naming
the backup path (the path passed to `remove_transparency`) and the
underlying error message. -/
theorem stepLog_corrupt (fs : FS) (m : String) (e : String)
    (h : findFile fs.files (iconPath m) = some (.corrupt e)) :
    stepLog fs m = [.failure (backupPath m) e] := by
  simp only [stepLog, processIcon, h, Option.isSome_some, if_true]
  simp only [FS.rename, h, remove_transparency, remove_transparency_try,
    findFile_setFile, if_pos rfl, decode, backupPath]
  simp

/-- Frame rule for one iteration: a path that is neither the processed
icon's path nor its backup path is untouched. -/
theorem findFile_stepFS_frame (fs : FS) (m p : String)
    (h1 : p ≠ iconPath m) (h2 : p ≠ backupPath m) :
    findFile (stepFS fs m).files p = findFile fs.files p := by
  rcases hc : findFile fs.files (iconPath m) with - | d
  · rw [stepFS_absent fs m hc]
  · rcases d with img | e
    · rw [stepFS_image fs m img hc,
        findFile_setFile, if_neg h1, findFile_setFile, if_neg h2,
        findFile_removeFile, if_neg h1]
    · rw [stepFS_corrupt fs m e hc,
        findFile_setFile, if_neg h2, findFile_removeFile, if_neg h1]

/-! ## Decomposing the whole loop -/

/-- The filesystem after running the loop body over `names` in order. -/
def runFS : FS → List String → FS
  | fs, [] => fs
  | fs, m :: ms => runFS (stepFS fs m) ms

/-- The messages printed while running the loop body over `names`. -/
def runLog : FS → List String → List Msg
  | _, [] => []
  | fs, m :: ms => stepLog fs m ++ runLog (stepFS fs m) ms

theorem foldl_processIcon (names : List String) (fs : FS) (log : List Msg) :
    names.foldl processIcon (fs, log) = (runFS fs names, log ++ runLog fs names) := by
  induction names generalizing fs log with
  | nil => simp [runFS, runLog]
  | cons m ms ih =>
      rw [List.foldl_cons, processIcon_eq, ih, runFS, runLog, List.append_assoc]

/-- `main()` when the icon directory exists: run the loop over the three
icon files, then print the completion banner. -/
theorem main_run (fs : FS) (hdir : app_icon_dir ∈ fs.dirs) :
    main' fs = (runFS fs icon_files, runLog fs icon_files ++ finalMsgs) := by
  simp [main', hdir, foldl_processIcon]

/-- The loop never creates or removes directories. -/
theorem runFS_dirs (names : List String) (fs : FS) :
    (runFS fs names).dirs = fs.dirs := by
  induction names generalizing fs with
  | nil => rfl
  | cons m ms ih => rw [runFS, ih, stepFS_dirs]

/-- `main` never creates or removes directories. -/
theorem main_dirs (fs : FS) : (main' fs).1.dirs = fs.dirs := by
  by_cases hdir : app_icon_dir ∈ fs.dirs
  · rw [main_run fs hdir]
    exact runFS_dirs icon_files fs
  · simp [main', hdir]

/-! ## Status messages -/

/-- `msg` is the per-file status line printed for `icon_file`: its
not-found warning, its success line, or its error line. -/
def statusFor (icon_file : String) : Msg → Prop
  | .fixed i o => i = backupPath icon_file ∧ o = iconPath icon_file
  | .failure i _ => i = backupPath icon_file
  | .notFound n => n = icon_file
  | _ => False

/-- Every loop iteration prints a status line for its file. -/
theorem stepLog_has_status (fs : FS) (m : String) :
    ∃ msg ∈ stepLog fs m, statusFor m msg := by
  rcases hc : findFile fs.files (iconPath m) with - | d
  · refine ⟨.notFound m, ?_, rfl⟩
    rw [stepLog_absent fs m hc]
    exact List.mem_singleton.mpr rfl
  · rcases d with img | e
    · refine ⟨.fixed (backupPath m) (iconPath m), ?_, rfl, rfl⟩
      rw [stepLog_image fs m img hc]
      exact List.mem_singleton.mpr rfl
    · refine ⟨.failure (backupPath m) e, ?_, rfl⟩
      rw [stepLog_corrupt fs m e hc]
      exact List.mem_singleton.mpr rfl

/-- A loop iteration on `m` never prints the not-found warning of a
different file `m'`. -/
theorem count_notFound_stepLog (fs : FS) (m m' : String) (h : m' ≠ m) :
    (stepLog fs m).count (Msg.notFound m') = 0 := by
  rcases hc : findFile fs.files (iconPath m) with - | d
  · rw [stepLog_absent fs m hc]
    simp [List.count_singleton, h]
  · rcases d with img | e
    · rw [stepLog_image fs m img hc]
      simp
    · rw [stepLog_corrupt fs m e hc]
      simp

/-- The completion banner contains no not-found warning. -/
theorem count_notFound_finalMsgs (m : String) :
    finalMsgs.count (Msg.notFound m) = 0 := by
  simp [finalMsgs]

/-! ## Effect of one iteration on the processed file's two paths -/

/-- After processing a decodable file, its backup path holds the original
data (any prior backup is silently overwritten). -/
theorem findFile_stepFS_image_backup (fs : FS) (m : String) (img : Img)
    (h : findFile fs.files (iconPath m) = some (.image img))
    (hne : backupPath m ≠ iconPath m) :
    findFile (stepFS fs m).files (backupPath m) = some (.image img) := by
  rw [stepFS_image fs m img h, findFile_setFile, if_neg hne,
    findFile_setFile, if_pos rfl]

/-- After processing a decodable file, its original path holds the
flattened image. -/
theorem findFile_stepFS_image_icon (fs : FS) (m : String) (img : Img)
    (h : findFile fs.files (iconPath m) = some (.image img)) :
    findFile (stepFS fs m).files (iconPath m) = some (.image (flattenImage img)) := by
  rw [stepFS_image fs m img h, findFile_setFile, if_pos rfl]

/-- After processing an undecodable file, its backup path holds the
original undecodable bytes. -/
theorem findFile_stepFS_corrupt_backup (fs : FS) (m : String) (e : String)
    (h : findFile fs.files (iconPath m) = some (.corrupt e)) :
    findFile (stepFS fs m).files (backupPath m) = some (.corrupt e) := by
  rw [stepFS_corrupt fs m e h, findFile_setFile, if_pos rfl]

/-- After processing an undecodable file, nothing is left at its original
path: the rename moved it away and the failed flatten wrote nothing. -/
theorem findFile_stepFS_corrupt_icon (fs : FS) (m : String) (e : String)
    (h : findFile fs.files (iconPath m) = some (.corrupt e))
    (hne : iconPath m ≠ backupPath m) :
    findFile (stepFS fs m).files (iconPath m) = none := by
  rw [stepFS_corrupt fs m e h, findFile_setFile, if_neg hne,
    findFile_removeFile, if_pos rfl]

/-! ## Master lemmas for `main` -/

/-- C5: a listed icon file that is absent under the root directory:
exactly one not-found warning is printed for it, no backup is created
for it (its backup path is untouched), and every other listed file still
receives a status line — the missing file is non-fatal and per-file. -/
theorem run_absent_effect (fs : FS) (name : String) (hmem : name ∈ icon_files)
    (hdir : app_icon_dir ∈ fs.dirs)
    (habs : findFile fs.files (iconPath name) = none) :
    (main' fs).2.count (Msg.notFound name) = 1 ∧
    findFile (main' fs).1.files (backupPath name) = findFile fs.files (backupPath name) ∧
    (∀ m ∈ icon_files, m ≠ name → ∃ msg ∈ (main' fs).2, statusFor m msg) := by
  rw [main_run fs hdir]
  simp only [icon_files, List.mem_cons, List.not_mem_nil, or_false] at hmem
  simp only [icon_files, runFS, runLog, List.append_nil]
  rcases hmem with h | h | h <;> subst h
  · rw [stepFS_absent _ _ habs, stepLog_absent _ _ habs]
    refine ⟨?_, ?_, ?_⟩
    · have c2 := count_notFound_stepLog fs "SaviPets-iOS-Dark-1024x1024@1x.png"
        "SaviPets-iOS-Default-1024x1024@1x.png" (by decide)
      have c3 := count_notFound_stepLog (stepFS fs "SaviPets-iOS-Dark-1024x1024@1x.png")
        "SaviPets-iOS-TintedLight-1024x1024@1x.png"
        "SaviPets-iOS-Default-1024x1024@1x.png" (by decide)
      simp [List.count_append, List.count_cons, c2, c3, count_notFound_finalMsgs]
    · rw [findFile_stepFS_frame _ _ _ (by decide) (by decide),
        findFile_stepFS_frame _ _ _ (by decide) (by decide)]
    · intro m hm hne
      simp only [List.mem_cons, List.not_mem_nil, or_false] at hm
      rcases hm with h | h | h <;> subst h
      · exact absurd rfl hne
      · obtain ⟨msg, h1, h2⟩ := stepLog_has_status fs "SaviPets-iOS-Dark-1024x1024@1x.png"
        exact ⟨msg, by simp [h1], h2⟩
      · obtain ⟨msg, h1, h2⟩ := stepLog_has_status
          (stepFS fs "SaviPets-iOS-Dark-1024x1024@1x.png")
          "SaviPets-iOS-TintedLight-1024x1024@1x.png"
        exact ⟨msg, by simp [h1], h2⟩
  · have habs1 : findFile (stepFS fs "SaviPets-iOS-Default-1024x1024@1x.png").files
        (iconPath "SaviPets-iOS-Dark-1024x1024@1x.png") = none := by
      rw [findFile_stepFS_frame _ _ _ (by decide) (by decide)]
      exact habs
    rw [stepFS_absent _ _ habs1, stepLog_absent _ _ habs1]
    refine ⟨?_, ?_, ?_⟩
    · have c1 := count_notFound_stepLog fs "SaviPets-iOS-Default-1024x1024@1x.png"
        "SaviPets-iOS-Dark-1024x1024@1x.png" (by decide)
      have c3 := count_notFound_stepLog (stepFS fs "SaviPets-iOS-Default-1024x1024@1x.png")
        "SaviPets-iOS-TintedLight-1024x1024@1x.png"
        "SaviPets-iOS-Dark-1024x1024@1x.png" (by decide)
      simp [List.count_append, List.count_cons, c1, c3, count_notFound_finalMsgs]
    · rw [findFile_stepFS_frame _ _ _ (by decide) (by decide),
        findFile_stepFS_frame _ _ _ (by decide) (by decide)]
    · intro m hm hne
      simp only [List.mem_cons, List.not_mem_nil, or_false] at hm
      rcases hm with h | h | h <;> subst h
      · obtain ⟨msg, h1, h2⟩ := stepLog_has_status fs "SaviPets-iOS-Default-1024x1024@1x.png"
        exact ⟨msg, by simp [h1], h2⟩
      · exact absurd rfl hne
      · obtain ⟨msg, h1, h2⟩ := stepLog_has_status
          (stepFS fs "SaviPets-iOS-Default-1024x1024@1x.png")
          "SaviPets-iOS-TintedLight-1024x1024@1x.png"
        exact ⟨msg, by simp [h1], h2⟩
  · have habs2 : findFile (stepFS (stepFS fs "SaviPets-iOS-Default-1024x1024@1x.png")
        "SaviPets-iOS-Dark-1024x1024@1x.png").files
        (iconPath "SaviPets-iOS-TintedLight-1024x1024@1x.png") = none := by
      rw [findFile_stepFS_frame _ _ _ (by decide) (by decide),
        findFile_stepFS_frame _ _ _ (by decide) (by decide)]
      exact habs
    rw [stepFS_absent _ _ habs2, stepLog_absent _ _ habs2]
    refine ⟨?_, ?_, ?_⟩
    · have c1 := count_notFound_stepLog fs "SaviPets-iOS-Default-1024x1024@1x.png"
        "SaviPets-iOS-TintedLight-1024x1024@1x.png" (by decide)
      have c2 := count_notFound_stepLog (stepFS fs "SaviPets-iOS-Default-1024x1024@1x.png")
        "SaviPets-iOS-Dark-1024x1024@1x.png"
        "SaviPets-iOS-TintedLight-1024x1024@1x.png" (by decide)
      simp [List.count_append, List.count_cons, c1, c2, count_notFound_finalMsgs]
    · rw [findFile_stepFS_frame _ _ _ (by decide) (by decide),
        findFile_stepFS_frame _ _ _ (by decide) (by decide)]
    · intro m hm hne
      simp only [List.mem_cons, List.not_mem_nil, or_false] at hm
      rcases hm with h | h | h <;> subst h
      · obtain ⟨msg, h1, h2⟩ := stepLog_has_status fs "SaviPets-iOS-Default-1024x1024@1x.png"
        exact ⟨msg, by simp [h1], h2⟩
      · obtain ⟨msg, h1, h2⟩ := stepLog_has_status
          (stepFS fs "SaviPets-iOS-Default-1024x1024@1x.png")
          "SaviPets-iOS-Dark-1024x1024@1x.png"
        exact ⟨msg, by simp [h1], h2⟩
      · exact absurd rfl hne

/-- C6: a listed icon file whose bytes fail to decode: the failure is
caught at the flatten call site and reported with the offending path
(the backup path handed to `remove_transparency`) and the underlying
error message; the file is left renamed at its backup path with nothing
at the original path; and the run proceeds — every other listed file
still receives a status line. -/
theorem run_corrupt_effect (fs : FS) (name e : String) (hmem : name ∈ icon_files)
    (hdir : app_icon_dir ∈ fs.dirs)
    (hcor : findFile fs.files (iconPath name) = some (.corrupt e)) :
    Msg.failure (backupPath name) e ∈ (main' fs).2 ∧
    findFile (main' fs).1.files (backupPath name) = some (.corrupt e) ∧
    findFile (main' fs).1.files (iconPath name) = none ∧
    (∀ m ∈ icon_files, m ≠ name → ∃ msg ∈ (main' fs).2, statusFor m msg) := by
  rw [main_run fs hdir]
  simp only [icon_files, List.mem_cons, List.not_mem_nil, or_false] at hmem
  simp only [icon_files, runFS, runLog, List.append_nil]
  rcases hmem with h | h | h <;> subst h
  · rw [stepLog_corrupt _ _ _ hcor]
    refine ⟨by simp, ?_, ?_, ?_⟩
    · rw [findFile_stepFS_frame _ _ _ (by decide) (by decide),
        findFile_stepFS_frame _ _ _ (by decide) (by decide)]
      exact findFile_stepFS_corrupt_backup fs _ e hcor
    · rw [findFile_stepFS_frame _ _ _ (by decide) (by decide),
        findFile_stepFS_frame _ _ _ (by decide) (by decide)]
      exact findFile_stepFS_corrupt_icon fs _ e hcor (by decide)
    · intro m hm hne
      simp only [List.mem_cons, List.not_mem_nil, or_false] at hm
      rcases hm with h | h | h <;> subst h
      · exact absurd rfl hne
      · obtain ⟨msg, h1, h2⟩ := stepLog_has_status
          (stepFS fs "SaviPets-iOS-Default-1024x1024@1x.png")
          "SaviPets-iOS-Dark-1024x1024@1x.png"
        exact ⟨msg, by simp [h1], h2⟩
      · obtain ⟨msg, h1, h2⟩ := stepLog_has_status
          (stepFS (stepFS fs "SaviPets-iOS-Default-1024x1024@1x.png")
            "SaviPets-iOS-Dark-1024x1024@1x.png")
          "SaviPets-iOS-TintedLight-1024x1024@1x.png"
        exact ⟨msg, by simp [h1], h2⟩
  · have hcor1 : findFile (stepFS fs "SaviPets-iOS-Default-1024x1024@1x.png").files
        (iconPath "SaviPets-iOS-Dark-1024x1024@1x.png") = some (.corrupt e) := by
      rw [findFile_stepFS_frame _ _ _ (by decide) (by decide)]
      exact hcor
    rw [stepLog_corrupt _ _ _ hcor1]
    refine ⟨by simp, ?_, ?_, ?_⟩
    · rw [findFile_stepFS_frame _ _ _ (by decide) (by decide)]
      exact findFile_stepFS_corrupt_backup _ _ e hcor1
    · rw [findFile_stepFS_frame _ _ _ (by decide) (by decide)]
      exact findFile_stepFS_corrupt_icon _ _ e hcor1 (by decide)
    · intro m hm hne
      simp only [List.mem_cons, List.not_mem_nil, or_false] at hm
      rcases hm with h | h | h <;> subst h
      · obtain ⟨msg, h1, h2⟩ := stepLog_has_status fs "SaviPets-iOS-Default-1024x1024@1x.png"
        exact ⟨msg, by simp [h1], h2⟩
      · exact absurd rfl hne
      · obtain ⟨msg, h1, h2⟩ := stepLog_has_status
          (stepFS (stepFS fs "SaviPets-iOS-Default-1024x1024@1x.png")
            "SaviPets-iOS-Dark-1024x1024@1x.png")
          "SaviPets-iOS-TintedLight-1024x1024@1x.png"
        exact ⟨msg, by simp [h1], h2⟩
  · have hcor2 : findFile (stepFS (stepFS fs "SaviPets-iOS-Default-1024x1024@1x.png")
        "SaviPets-iOS-Dark-1024x1024@1x.png").files
        (iconPath "SaviPets-iOS-TintedLight-1024x1024@1x.png") = some (.corrupt e) := by
      rw [findFile_stepFS_frame _ _ _ (by decide) (by decide),
        findFile_stepFS_frame _ _ _ (by decide) (by decide)]
      exact hcor
    rw [stepLog_corrupt _ _ _ hcor2]
    refine ⟨by simp, ?_, ?_, ?_⟩
    · exact findFile_stepFS_corrupt_backup _ _ e hcor2
    · exact findFile_stepFS_corrupt_icon _ _ e hcor2 (by decide)
    · intro m hm hne
      simp only [List.mem_cons, List.not_mem_nil, or_false] at hm
      rcases hm with h | h | h <;> subst h
      · obtain ⟨msg, h1, h2⟩ := stepLog_has_status fs "SaviPets-iOS-Default-1024x1024@1x.png"
        exact ⟨msg, by simp [h1], h2⟩
      · obtain ⟨msg, h1, h2⟩ := stepLog_has_status
          (stepFS fs "SaviPets-iOS-Default-1024x1024@1x.png")
          "SaviPets-iOS-Dark-1024x1024@1x.png"
        exact ⟨msg, by simp [h1], h2⟩
      · exact absurd rfl hne

/-- A listed icon file that exists: the run moves the original data to
the backup path (overwriting any prior backup) and leaves at the
original path the flattened image when the data decodes, nothing when it
does not. -/
theorem run_present_effect (fs : FS) (name : String) (d : FileData)
    (hmem : name ∈ icon_files) (hdir : app_icon_dir ∈ fs.dirs)
    (hpres : findFile fs.files (iconPath name) = some d) :
    findFile (main' fs).1.files (backupPath name) = some d ∧
    findFile (main' fs).1.files (iconPath name) =
      (match d with
       | .image img => some (.image (flattenImage img))
       | .corrupt _ => none) := by
  rw [main_run fs hdir]
  simp only [icon_files, List.mem_cons, List.not_mem_nil, or_false] at hmem
  simp only [icon_files, runFS, runLog, List.append_nil]
  rcases hmem with h | h | h <;> subst h
  · rcases d with img | e
    · constructor
      · rw [findFile_stepFS_frame _ _ _ (by decide) (by decide),
          findFile_stepFS_frame _ _ _ (by decide) (by decide)]
        exact findFile_stepFS_image_backup fs _ img hpres (by decide)
      · rw [findFile_stepFS_frame _ _ _ (by decide) (by decide),
          findFile_stepFS_frame _ _ _ (by decide) (by decide)]
        exact findFile_stepFS_image_icon fs _ img hpres
    · constructor
      · rw [findFile_stepFS_frame _ _ _ (by decide) (by decide),
          findFile_stepFS_frame _ _ _ (by decide) (by decide)]
        exact findFile_stepFS_corrupt_backup fs _ e hpres
      · rw [findFile_stepFS_frame _ _ _ (by decide) (by decide),
          findFile_stepFS_frame _ _ _ (by decide) (by decide)]
        exact findFile_stepFS_corrupt_icon fs _ e hpres (by decide)
  · have hpres1 : findFile (stepFS fs "SaviPets-iOS-Default-1024x1024@1x.png").files
        (iconPath "SaviPets-iOS-Dark-1024x1024@1x.png") = some d := by
      rw [findFile_stepFS_frame _ _ _ (by decide) (by decide)]
      exact hpres
    rcases d with img | e
    · constructor
      · rw [findFile_stepFS_frame _ _ _ (by decide) (by decide)]
        exact findFile_stepFS_image_backup _ _ img hpres1 (by decide)
      · rw [findFile_stepFS_frame _ _ _ (by decide) (by decide)]
        exact findFile_stepFS_image_icon _ _ img hpres1
    · constructor
      · rw [findFile_stepFS_frame _ _ _ (by decide) (by decide)]
        exact findFile_stepFS_corrupt_backup _ _ e hpres1
      · rw [findFile_stepFS_frame _ _ _ (by decide) (by decide)]
        exact findFile_stepFS_corrupt_icon _ _ e hpres1 (by decide)
  · have hpres2 : findFile (stepFS (stepFS fs "SaviPets-iOS-Default-1024x1024@1x.png")
        "SaviPets-iOS-Dark-1024x1024@1x.png").files
        (iconPath "SaviPets-iOS-TintedLight-1024x1024@1x.png") = some d := by
      rw [findFile_stepFS_frame _ _ _ (by decide) (by decide),
        findFile_stepFS_frame _ _ _ (by decide) (by decide)]
      exact hpres
    rcases d with img | e
    · exact ⟨findFile_stepFS_image_backup _ _ img hpres2 (by decide),
        findFile_stepFS_image_icon _ _ img hpres2⟩
    · exact ⟨findFile_stepFS_corrupt_backup _ _ e hpres2,
        findFile_stepFS_corrupt_icon _ _ e hpres2 (by decide)⟩

/-! ## Remaining claims -/

/-- C4: when the root icon directory does not exist, `main` performs no
file creation, rename or write at all — the filesystem is returned
unchanged — and its only observable effect is the single diagnostic
message, after which the run ends. -/
theorem main_missing_dir (fs : FS) (hdir : app_icon_dir ∉ fs.dirs) :
    main' fs = (fs, [Msg.dirNotFound app_icon_dir]) := by
  simp [main', hdir]

/-- Witness for `main_missing_dir` on an empty filesystem. -/
theorem main_missing_dir_witness :
    app_icon_dir ∉ (FS.mk [] []).dirs ∧
    main' (FS.mk [] []) = (FS.mk [] [], [Msg.dirNotFound app_icon_dir]) :=
  ⟨by decide, main_missing_dir (FS.mk [] []) (by decide)⟩

/-- Witness for `run_absent_effect`: directory present, no files at all;
the first listed icon is missing. -/
theorem run_absent_effect_witness :
    "SaviPets-iOS-Default-1024x1024@1x.png" ∈ icon_files ∧
    app_icon_dir ∈ (FS.mk [app_icon_dir] []).dirs ∧
    findFile (FS.mk [app_icon_dir] []).files
      (iconPath "SaviPets-iOS-Default-1024x1024@1x.png") = none ∧
    ((main' (FS.mk [app_icon_dir] [])).2.count
        (Msg.notFound "SaviPets-iOS-Default-1024x1024@1x.png") = 1 ∧
      findFile (main' (FS.mk [app_icon_dir] [])).1.files
          (backupPath "SaviPets-iOS-Default-1024x1024@1x.png")
        = findFile (FS.mk [app_icon_dir] []).files
            (backupPath "SaviPets-iOS-Default-1024x1024@1x.png") ∧
      (∀ m ∈ icon_files, m ≠ "SaviPets-iOS-Default-1024x1024@1x.png" →
        ∃ msg ∈ (main' (FS.mk [app_icon_dir] [])).2, statusFor m msg)) :=
  ⟨by decide, by decide, by decide,
    run_absent_effect (FS.mk [app_icon_dir] []) _ (by decide) (by decide) (by decide)⟩

/-- Witness for `run_corrupt_effect`: directory present, the second
listed icon exists but its bytes do not decode. -/
theorem run_corrupt_effect_witness :
    "SaviPets-iOS-Dark-1024x1024@1x.png" ∈ icon_files ∧
    app_icon_dir ∈ (FS.mk [app_icon_dir]
      [(iconPath "SaviPets-iOS-Dark-1024x1024@1x.png", .corrupt "broken header")]).dirs ∧
    findFile (FS.mk [app_icon_dir]
        [(iconPath "SaviPets-iOS-Dark-1024x1024@1x.png", .corrupt "broken header")]).files
      (iconPath "SaviPets-iOS-Dark-1024x1024@1x.png") = some (.corrupt "broken header") ∧
    (Msg.failure (backupPath "SaviPets-iOS-Dark-1024x1024@1x.png") "broken header" ∈
        (main' (FS.mk [app_icon_dir]
          [(iconPath "SaviPets-iOS-Dark-1024x1024@1x.png", .corrupt "broken header")])).2 ∧
      findFile (main' (FS.mk [app_icon_dir]
          [(iconPath "SaviPets-iOS-Dark-1024x1024@1x.png", .corrupt "broken header")])).1.files
          (backupPath "SaviPets-iOS-Dark-1024x1024@1x.png") = some (.corrupt "broken header") ∧
      findFile (main' (FS.mk [app_icon_dir]
          [(iconPath "SaviPets-iOS-Dark-1024x1024@1x.png", .corrupt "broken header")])).1.files
          (iconPath "SaviPets-iOS-Dark-1024x1024@1x.png") = none ∧
      (∀ m ∈ icon_files, m ≠ "SaviPets-iOS-Dark-1024x1024@1x.png" →
        ∃ msg ∈ (main' (FS.mk [app_icon_dir]
          [(iconPath "SaviPets-iOS-Dark-1024x1024@1x.png", .corrupt "broken header")])).2,
          statusFor m msg)) :=
  ⟨by decide, by decide, by decide,
    run_corrupt_effect _ _ "broken header" (by decide) (by decide) (by decide)⟩

/-- C7: a listed icon file that exists is first renamed to its `.backup`
path (overwriting any prior file there — the input filesystem is
arbitrary) and only then flattened with the backup as the read source
and the original path as destination: afterwards the backup path holds
exactly the original data, and the original path holds the flattening of
that very data (nothing, if it does not decode). -/
theorem main_backup_then_flatten (fs : FS) (name : String) (d : FileData)
    (hmem : name ∈ icon_files) (hdir : app_icon_dir ∈ fs.dirs)
    (hpres : findFile fs.files (iconPath name) = some d) :
    findFile (main' fs).1.files (backupPath name) = some d ∧
    findFile (main' fs).1.files (iconPath name) =
      (match d with
       | .image img => some (.image (flattenImage img))
       | .corrupt _ => none) :=
  run_present_effect fs name d hmem hdir hpres

/-- Witness for `main_backup_then_flatten`: the third listed icon exists
as a one-pixel transparent image, and a stale file already sits at its
backup path. -/
theorem main_backup_then_flatten_witness :
    "SaviPets-iOS-TintedLight-1024x1024@1x.png" ∈ icon_files ∧
    app_icon_dir ∈ (FS.mk [app_icon_dir]
      [(iconPath "SaviPets-iOS-TintedLight-1024x1024@1x.png", .image (.rgba [⟨0, 0, 0, 0⟩])),
       (backupPath "SaviPets-iOS-TintedLight-1024x1024@1x.png", .corrupt "stale")]).dirs ∧
    findFile (FS.mk [app_icon_dir]
        [(iconPath "SaviPets-iOS-TintedLight-1024x1024@1x.png", .image (.rgba [⟨0, 0, 0, 0⟩])),
         (backupPath "SaviPets-iOS-TintedLight-1024x1024@1x.png", .corrupt "stale")]).files
      (iconPath "SaviPets-iOS-TintedLight-1024x1024@1x.png")
      = some (.image (.rgba [⟨0, 0, 0, 0⟩])) ∧
    (findFile (main' (FS.mk [app_icon_dir]
        [(iconPath "SaviPets-iOS-TintedLight-1024x1024@1x.png", .image (.rgba [⟨0, 0, 0, 0⟩])),
         (backupPath "SaviPets-iOS-TintedLight-1024x1024@1x.png", .corrupt "stale")])).1.files
        (backupPath "SaviPets-iOS-TintedLight-1024x1024@1x.png")
        = some (.image (.rgba [⟨0, 0, 0, 0⟩])) ∧
      findFile (main' (FS.mk [app_icon_dir]
        [(iconPath "SaviPets-iOS-TintedLight-1024x1024@1x.png", .image (.rgba [⟨0, 0, 0, 0⟩])),
         (backupPath "SaviPets-iOS-TintedLight-1024x1024@1x.png", .corrupt "stale")])).1.files
        (iconPath "SaviPets-iOS-TintedLight-1024x1024@1x.png")
        = (match FileData.image (.rgba [⟨0, 0, 0, 0⟩]) with
           | .image img => some (.image (flattenImage img))
           | .corrupt _ => none)) :=
  ⟨by decide, by decide, by decide,
    main_backup_then_flatten _ _ (.image (.rgba [⟨0, 0, 0, 0⟩]))
      (by decide) (by decide) (by decide)⟩

/-- C8: running the operation twice over the same directory does not
reproduce the first backup: after the second run, the backup path of a
processed icon holds the already-flattened, alpha-free image produced by
the first run (and the original path holds its double flattening), so
the original transparent source bytes sit at neither path. -/
theorem main_twice_backup_lost (fs : FS) (name : String) (img : Img)
    (hmem : name ∈ icon_files) (hdir : app_icon_dir ∈ fs.dirs)
    (hpres : findFile fs.files (iconPath name) = some (.image img)) :
    findFile (main' (main' fs).1).1.files (backupPath name)
      = some (.image (flattenImage img)) ∧
    findFile (main' (main' fs).1).1.files (iconPath name)
      = some (.image (flattenImage (flattenImage img))) ∧
    (flattenImage img).hasAlpha = false := by
  have h1 := run_present_effect fs name (.image img) hmem hdir hpres
  have hdir1 : app_icon_dir ∈ (main' fs).1.dirs := by
    rw [main_dirs]
    exact hdir
  have hpres1 : findFile (main' fs).1.files (iconPath name)
      = some (.image (flattenImage img)) := h1.2
  have h2 := run_present_effect (main' fs).1 name (.image (flattenImage img))
    hmem hdir1 hpres1
  exact ⟨h2.1, h2.2, rfl⟩

/-- Witness for `main_twice_backup_lost`: the first listed icon exists
as a one-pixel transparent black image. -/
theorem main_twice_backup_lost_witness :
    "SaviPets-iOS-Default-1024x1024@1x.png" ∈ icon_files ∧
    app_icon_dir ∈ (FS.mk [app_icon_dir]
      [(iconPath "SaviPets-iOS-Default-1024x1024@1x.png", .image (.rgba [⟨0, 0, 0, 0⟩]))]).dirs ∧
    findFile (FS.mk [app_icon_dir]
        [(iconPath "SaviPets-iOS-Default-1024x1024@1x.png", .image (.rgba [⟨0, 0, 0, 0⟩]))]).files
      (iconPath "SaviPets-iOS-Default-1024x1024@1x.png")
      = some (.image (.rgba [⟨0, 0, 0, 0⟩])) ∧
    (findFile (main' (main' (FS.mk [app_icon_dir]
          [(iconPath "SaviPets-iOS-Default-1024x1024@1x.png",
            .image (.rgba [⟨0, 0, 0, 0⟩]))])).1).1.files
        (backupPath "SaviPets-iOS-Default-1024x1024@1x.png")
        = some (.image (flattenImage (.rgba [⟨0, 0, 0, 0⟩]))) ∧
      findFile (main' (main' (FS.mk [app_icon_dir]
          [(iconPath "SaviPets-iOS-Default-1024x1024@1x.png",
            .image (.rgba [⟨0, 0, 0, 0⟩]))])).1).1.files
        (iconPath "SaviPets-iOS-Default-1024x1024@1x.png")
        = some (.image (flattenImage (flattenImage (.rgba [⟨0, 0, 0, 0⟩])))) ∧
      (flattenImage (.rgba [⟨0, 0, 0, 0⟩])).hasAlpha = false) :=
  ⟨by decide, by decide, by decide,
    main_twice_backup_lost _ _ (.rgba [⟨0, 0, 0, 0⟩]) (by decide) (by decide) (by decide)⟩

/-- C9: when the root directory exists, the run attempts all three
listed filenames — each receives a status line regardless of any
per-file failure, the loop never aborts partway — and the log always
ends with the completion banner (the model returns normally on every
input, with no distinguished exit code). -/
theorem main_attempts_all (fs : FS) (hdir : app_icon_dir ∈ fs.dirs) :
    (∃ l, (main' fs).2 = l ++ finalMsgs) ∧
    ∀ m ∈ icon_files, ∃ msg ∈ (main' fs).2, statusFor m msg := by
  rw [main_run fs hdir]
  refine ⟨⟨runLog fs icon_files, rfl⟩, ?_⟩
  intro m hm
  simp only [icon_files, List.mem_cons, List.not_mem_nil, or_false] at hm
  simp only [icon_files, runLog, List.append_nil]
  rcases hm with h | h | h <;> subst h
  · obtain ⟨msg, h1, h2⟩ := stepLog_has_status fs "SaviPets-iOS-Default-1024x1024@1x.png"
    exact ⟨msg, by simp [h1], h2⟩
  · obtain ⟨msg, h1, h2⟩ := stepLog_has_status
      (stepFS fs "SaviPets-iOS-Default-1024x1024@1x.png")
      "SaviPets-iOS-Dark-1024x1024@1x.png"
    exact ⟨msg, by simp [h1], h2⟩
  · obtain ⟨msg, h1, h2⟩ := stepLog_has_status
      (stepFS (stepFS fs "SaviPets-iOS-Default-1024x1024@1x.png")
        "SaviPets-iOS-Dark-1024x1024@1x.png")
      "SaviPets-iOS-TintedLight-1024x1024@1x.png"
    exact ⟨msg, by simp [h1], h2⟩

/-- Witness for `main_attempts_all` on a filesystem holding only the
icon directory. -/
theorem main_attempts_all_witness :
    app_icon_dir ∈ (FS.mk [app_icon_dir] []).dirs ∧
    ((∃ l, (main' (FS.mk [app_icon_dir] [])).2 = l ++ finalMsgs) ∧
      ∀ m ∈ icon_files, ∃ msg ∈ (main' (FS.mk [app_icon_dir] [])).2, statusFor m msg) :=
  ⟨by decide, main_attempts_all (FS.mk [app_icon_dir] []) (by decide)⟩

/-- C10: `remove_transparency` never propagates an exception: whenever
its `try` body raises (missing file, undecodable bytes), the exception
is caught, the error line naming the input path and the underlying
message is printed, the filesystem is left unchanged, and the function
returns normally. -/
theorem remove_transparency_catches (fs : FS) (i o e : String)
    (h : remove_transparency_try fs i o = .error e) :
    remove_transparency fs i o = (fs, [Msg.failure i e]) := by
  simp [remove_transparency, h]

/-- Witness for `remove_transparency_catches`: opening a missing file. -/
theorem remove_transparency_catches_witness :
    remove_transparency_try (FS.mk [] []) "in.png" "out.png"
      = .error "No such file or directory" ∧
    remove_transparency (FS.mk [] []) "in.png" "out.png"
      = (FS.mk [] [], [Msg.failure "in.png" "No such file or directory"]) :=
  ⟨rfl, remove_transparency_catches (FS.mk [] []) "in.png" "out.png" _ rfl⟩
